import Mathlib

/-!
# Verification of `json_to_yaml.py` (SurveyNav)

Shallow embedding of `app/src/main/assets/json_to_yaml.py` and proofs of the
specified properties of its transformation pipeline.

JSON values parsed by `json.load` are modelled by `JVal`.  The two scalar-style
wrapper classes of the YAML library (`LiteralScalarString` and
`FoldedScalarString`, both with chomp `-`) are modelled as the extra
constructors `literalStrip` and `foldedStrip`; a bare `str` is a plain scalar.
Python `dict`s are modelled as ordered association lists with string keys, the
shape `json.load` produces.  A Python function that can raise is modelled as a
function into `Option` (`none` = an exception propagates).
-/

set_option autoImplicit false

namespace SurveyNav

/-- A Python value as it occurs in this program: JSON data plus the two styled
string wrappers produced by `as_literal_strip` / `as_folded_strip`. -/
inductive JVal where
  | null
  | boolean (b : Bool)
  | number (n : Int)
  | str (s : String)
  | literalStrip (s : String)
  | foldedStrip (s : String)
  | arr (elems : List JVal)
  | obj (fields : List (String × JVal))

/-- Python `d.get(k)` on a dict modelled as an ordered association list: value of the
first entry with key `k` (JSON objects have unique keys, so "first" is "the"). -/
def dictGet (fields : List (String × JVal)) (k : String) : Option JVal :=
  match fields with
  | [] => none
  | (k', v) :: rest => if k' = k then some v else dictGet rest k

/-- Python `d[k] = v` on a dict: replace the value of the existing entry in place
(preserving its position), or append a fresh entry when the key is absent —
exactly the ordered-`dict` assignment semantics of CPython. -/
def dictSet (fields : List (String × JVal)) (k : String) (v : JVal) :
    List (String × JVal) :=
  match fields with
  | [] => [(k, v)]
  | (k', v') :: rest => if k' = k then (k', v) :: rest else (k', v') :: dictSet rest k v

/-- Python `isinstance(x, str)` together with the access to the underlying text:
`LiteralScalarString`/`FoldedScalarString` are `str` subclasses, so they count
as strings and expose their payload. -/
def asPyStr : JVal → Option String
  | .str s => some s
  | .literalStrip s => some s
  | .foldedStrip s => some s
  | _ => none

/-- First `.replace` call of `as_literal_strip`/`as_folded_strip`
(line 42 / line 53): `text.replace("\r\n", "\n")` — non-overlapping,
left-to-right replacement of each CRLF pair by a single LF. -/
def replaceCRLF : List Char → List Char
  | [] => []
  | [c] => [c]
  | c1 :: c2 :: rest =>
    if c1 = '\r' ∧ c2 = '\n' then '\n' :: replaceCRLF rest
    else c1 :: replaceCRLF (c2 :: rest)

/-- Second `.replace` call: `.replace("\r", "\n")` — every remaining CR
becomes an LF. -/
def replaceCR (l : List Char) : List Char :=
  l.map (fun c => if c = '\r' then '\n' else c)

/-- Python `.rstrip("\n")`: remove every trailing LF (not just one). -/
def rstripLF (l : List Char) : List Char :=
  (l.reverse.dropWhile (fun c => c = '\n')).reverse

/-- The newline normalization shared by `as_literal_strip` (line 42) and
`as_folded_strip` (line 53):
`text.replace("\r\n", "\n").replace("\r", "\n").rstrip("\n")`. -/
def normalize (t : String) : String :=
  ⟨rstripLF (replaceCR (replaceCRLF t.data))⟩

/-- Function `as_literal_strip(text)` (lines 39-47): a `LiteralScalarString` with chomp
`-` carrying the normalized text. -/
def as_literal_strip (text : String) : JVal :=
  .literalStrip (normalize text)

/-- Function `as_folded_strip(text)` (lines 50-57): a `FoldedScalarString` with chomp
`-` carrying the normalized text. -/
def as_folded_strip (text : String) : JVal :=
  .foldedStrip (normalize text)

/-- Function `is_short_plain_question(s)` (lines 31-36): `if not s: return True;
return ("\n" not in s) and (len(s) <= 40)`.  The Python check `"\n" in s` on a
one-character needle is character membership. -/
def is_short_plain_question (s : String) : Bool :=
  if s.isEmpty then true
  else (!s.data.contains '\n') && decide (s.length ≤ 40)

/-- Python `dict(n)` (line 91, `n2 = dict(n)`): succeeds on a mapping, producing a
shallow copy; on anything else the nodes this program handles (strings,
numbers, booleans, null, JSON arrays of non-pairs) it raises.  (the CPython `dict()` constructor also accepts sequences of key-value pairs; survey nodes are JSON
objects, so only the mapping case arises and is modelled.) -/
def pyDict : JVal → Option (List (String × JVal))
  | .obj fields => some fields
  | _ => none

/-- Python `x.get(...)` requires `x` to be a dict; anything else raises
`AttributeError`. -/
def pyDictOf : JVal → Option (List (String × JVal))
  | .obj fields => some fields
  | _ => none

/-- Python `for x in v`: the elements iteration yields.  A list yields its elements,
a string its characters (as one-character strings), a dict its keys; numbers,
booleans and `None` raise `TypeError`. -/
def iterElems : JVal → Option (List JVal)
  | .arr xs => some xs
  | .str s => some (s.data.map (fun c => .str ⟨[c]⟩))
  | .obj fields => some (fields.map (fun kv => .str kv.1))
  | _ => none

/-- A `for` loop appending `f x` for each element, aborting the whole
computation when any iteration raises. -/
def mapMOpt (f : JVal → Option JVal) : List JVal → Option (List JVal)
  | [] => some []
  | x :: xs =>
    match f x, mapMOpt f xs with
    | some y, some ys => some (y :: ys)
    | _, _ => none

/-- One iteration of the prompt loop (lines 70-76): `p.get("nodeId")`
(defaulting to `None`), `p.get("prompt", "")`, and emission of
`{"nodeId": node_id, "prompt": as_literal_strip(prompt_text)}`.
`as_literal_strip` raises unless its argument is a string. -/
def transformPrompt (p : JVal) : Option JVal :=
  match pyDictOf p with
  | none => none
  | some fields =>
    let node_id := (dictGet fields "nodeId").getD .null
    let prompt_text := (dictGet fields "prompt").getD (.str "")
    match asPyStr prompt_text with
    | none => none
    | some s => some (.obj [("nodeId", node_id), ("prompt", as_literal_strip s)])

/-- One iteration of the node loop (lines 90-101): shallow-copy the node,
then restyle `question` only when it is present and a string: empty stays the
empty plain string, short-and-plain stays the original value, anything else
becomes `as_folded_strip` of it. -/
def transformNode (n : JVal) : Option JVal :=
  match pyDict n with
  | none => none
  | some fields =>
    match dictGet fields "question" with
    | none => some (.obj fields)
    | some qv =>
      match asPyStr qv with
      | none => some (.obj fields)
      | some q =>
        if q.length = 0 then some (.obj (dictSet fields "question" (.str "")))
        else if is_short_plain_question q then
          some (.obj (dictSet fields "question" qv))
        else some (.obj (dictSet fields "question" (as_folded_strip q)))

/-- The `g_out["startId"]` step (lines 84-86): the output graph starts with a
`startId` entry exactly when the input graph object has that key, carrying the
same value. -/
def startIdPart (gfields : List (String × JVal)) : List (String × JVal) :=
  match dictGet gfields "startId" with
  | some v => [("startId", v)]
  | none => []

/-- The prompt loop over `data.get("prompts", [])`. -/
def transformPrompts (v : JVal) : Option (List JVal) :=
  match iterElems v with
  | none => none
  | some es => mapMOpt transformPrompt es

/-- The graph half of `transform` (lines 80-105): `g_in` must be a mapping
(every non-mapping raises by the time `g_in.get("nodes", [])` runs), nodes are
iterated through `transformNode`, and the output graph is `startId` (when
present) followed by `nodes`. -/
def transformGraph (g : JVal) : Option JVal :=
  match pyDictOf g with
  | none => none
  | some gfields =>
    match iterElems ((dictGet gfields "nodes").getD (.arr [])) with
    | none => none
    | some es =>
      match mapMOpt transformNode es with
      | none => none
      | some ns => some (.obj (startIdPart gfields ++ [("nodes", .arr ns)]))

/-- Function `transform(data)` (lines 60-107): requires a mapping, runs the prompt pass
over `data.get("prompts", [])` and the graph pass over
`data.get("graph", \x7b\x7d)`, and assembles
`\x7b"prompts": ..., "graph": ...\x7d` in that key order. -/
def transform (data : JVal) : Option JVal :=
  match pyDictOf data with
  | none => none
  | some fields =>
    match transformPrompts ((dictGet fields "prompts").getD (.arr [])) with
    | none => none
    | some ps =>
      match transformGraph ((dictGet fields "graph").getD (.obj [])) with
      | none => none
      | some g => some (.obj [("prompts", .arr ps), ("graph", g)])

/-- The environment `main` (lines 119-144) runs in, with every external
operation abstracted as its outcome: whether `ruamel.yaml` imports, what
`load_json` produces (`Except.error` = the exception text of an I/O or JSON
parse failure), the exception text if `transform` raises, and the outcome of
writing the YAML output. -/
structure DriverWorld where
  yamlAvailable : Bool
  loadOutcome : Except String JVal
  transformErrText : String
  writeOutcome : Except String Unit

/-- The driver: the import guard (lines 23-28) and `main` (lines 132-144).
Returns the process exit code and the diagnostic line printed to standard
error (`none` = nothing printed). -/
def runDriver (w : DriverWorld) : Nat × Option String :=
  if !w.yamlAvailable then
    (2, some "Error: ruamel.yaml is required. Install with: pip install ruamel.yaml")
  else
    match w.loadOutcome with
    | .error e => (1, some ("Conversion failed: " ++ e))
    | .ok data =>
      match transform data with
      | none => (1, some ("Conversion failed: " ++ w.transformErrText))
      | some _ =>
        match w.writeOutcome with
        | .error e => (1, some ("Conversion failed: " ++ e))
        | .ok _ => (0, none)

/-! ## Properties of `normalize` -/

theorem rstripLF_eq_rdropWhile (l : List Char) :
    rstripLF l = List.rdropWhile (fun c => c = '\n') l := rfl

theorem replaceCRLF_of_not_mem {l : List Char} (h : '\r' ∉ l) : replaceCRLF l = l := by
  induction l using replaceCRLF.induct with
  | case1 => rfl
  | case2 c => rfl
  | case3 c1 c2 rest hcr ih =>
    exfalso
    exact h (hcr.1 ▸ List.mem_cons_self _ _)
  | case4 c1 c2 rest hcr ih =>
    rw [replaceCRLF, if_neg hcr, ih]
    intro hm
    exact h (List.mem_cons_of_mem _ hm)

theorem not_mem_replaceCR (l : List Char) : '\r' ∉ replaceCR l := by
  intro h
  rcases List.mem_map.1 h with ⟨c, _, hc⟩
  by_cases hcr : c = '\r' <;> simp [hcr] at hc

theorem replaceCR_of_not_mem {l : List Char} (h : '\r' ∉ l) : replaceCR l = l := by
  induction l with
  | nil => rfl
  | cons c rest ih =>
    show (if c = '\r' then '\n' else c) :: replaceCR rest = c :: rest
    rw [if_neg, ih (fun hm => h (List.mem_cons_of_mem _ hm))]
    intro hcr
    exact h (hcr ▸ List.mem_cons_self _ _)

theorem mem_of_mem_rstripLF {c : Char} {l : List Char} (h : c ∈ rstripLF l) : c ∈ l :=
  (List.rdropWhile_prefix _ _).sublist.mem h

theorem rstripLF_getLast? (l : List Char) : (rstripLF l).getLast? ≠ some '\n' := by
  rw [rstripLF_eq_rdropWhile]
  intro h
  rcases List.getLast?_eq_some_iff.1 h with ⟨l', hl'⟩
  have hne : List.rdropWhile (fun c => c = '\n') l ≠ [] := by
    rw [hl']; exact List.append_ne_nil_of_right_ne_nil _ (by simp)
  have := List.rdropWhile_last_not (fun c => c = '\n') l hne
  rw [List.getLast_congr _ _ hl', List.getLast_append_singleton] at this
  simp at this

theorem rstripLF_of_getLast? {l : List Char} (h : l.getLast? ≠ some '\n') :
    rstripLF l = l := by
  rw [rstripLF_eq_rdropWhile, List.rdropWhile_eq_self_iff]
  intro hl hp
  rw [decide_eq_true_eq] at hp
  exact h (hp ▸ List.getLast?_eq_getLast l hl)

theorem not_mem_rstripLF_replaceCR (l : List Char) : '\r' ∉ rstripLF (replaceCR l) :=
  fun h => not_mem_replaceCR l (mem_of_mem_rstripLF h)

/-- C2.  For every string `t`: `normalize t` contains no CR, does not end with
LF, and `normalize` is idempotent. -/
theorem normalize_no_cr_no_trailing_lf_idempotent (t : String) :
    '\r' ∉ (normalize t).data ∧
    (normalize t).data.getLast? ≠ some '\n' ∧
    normalize (normalize t) = normalize t := by
  refine ⟨not_mem_rstripLF_replaceCR _, rstripLF_getLast? _, ?_⟩
  show (⟨rstripLF (replaceCR (replaceCRLF (normalize t).data))⟩ : String) = normalize t
  have hnocr : '\r' ∉ (normalize t).data := not_mem_rstripLF_replaceCR _
  have hlast : (normalize t).data.getLast? ≠ some '\n' :=
    rstripLF_getLast? (replaceCR (replaceCRLF t.data))
  rw [replaceCRLF_of_not_mem hnocr, replaceCR_of_not_mem hnocr,
    rstripLF_of_getLast? hlast]

/-! ## The question classification -/

theorem is_short_plain_question_iff (s : String) :
    is_short_plain_question s = true ↔ (s = "" ∨ ('\n' ∉ s.data ∧ s.length ≤ 40)) := by
  unfold is_short_plain_question
  by_cases hs : s = ""
  · simp [hs]
  · rw [if_neg (by simpa [String.isEmpty_iff] using hs)]
    simp [hs]

theorem transformNode_question_strlike (fs : List (String × JVal)) (qv : JVal)
    (q : String) (hq : dictGet fs "question" = some qv) (hs : asPyStr qv = some q) :
    transformNode (.obj fs) = some (.obj (dictSet fs "question"
      (if q.length = 0 then JVal.str ""
       else if is_short_plain_question q then qv
       else JVal.foldedStrip (normalize q)))) := by
  simp only [transformNode, pyDict, hq, hs, as_folded_strip]
  split_ifs <;> rfl

theorem transformNode_question_absent (fs : List (String × JVal))
    (h : dictGet fs "question" = none) : transformNode (.obj fs) = some (.obj fs) := by
  simp only [transformNode, pyDict, h]

theorem transformNode_question_nonstr (fs : List (String × JVal)) (v : JVal)
    (h : dictGet fs "question" = some v) (hv : asPyStr v = none) :
    transformNode (.obj fs) = some (.obj fs) := by
  simp only [transformNode, pyDict, h, hv]

/-! ## Frame properties of `dictSet` -/

theorem dictSet_map_fst {fs : List (String × JVal)} {k : String} (v : JVal)
    (h : (dictGet fs k).isSome) :
    (dictSet fs k v).map Prod.fst = fs.map Prod.fst := by
  induction fs with
  | nil => simp [dictGet] at h
  | cons kv rest ih =>
    obtain ⟨k', v'⟩ := kv
    by_cases hk : k' = k
    · simp [dictSet, hk]
    · unfold dictGet at h
      rw [if_neg hk] at h
      unfold dictSet
      rw [if_neg hk]
      simp only [List.map_cons]
      rw [ih h]

theorem dictSet_filter_ne (fs : List (String × JVal)) (k : String) (v : JVal) :
    (dictSet fs k v).filter (fun kv => !(kv.1 == k)) =
      fs.filter (fun kv => !(kv.1 == k)) := by
  induction fs with
  | nil => simp [dictSet]
  | cons kv rest ih =>
    obtain ⟨k', v'⟩ := kv
    by_cases hk : k' = k
    · simp [dictSet, hk]
    · unfold dictSet
      rw [if_neg hk]
      simp only [List.filter_cons]
      rw [ih]

/-! ## Shape of the assembled graph and document -/

theorem dictGet_graph_out_startId (gfields : List (String × JVal)) (ns : List JVal) :
    dictGet (startIdPart gfields ++ [("nodes", JVal.arr ns)]) "startId" =
      dictGet gfields "startId" := by
  unfold startIdPart
  cases h : dictGet gfields "startId" <;> simp [dictGet]

theorem dictGet_graph_out_nodes (gfields : List (String × JVal)) (ns : List JVal) :
    dictGet (startIdPart gfields ++ [("nodes", JVal.arr ns)]) "nodes" =
      some (JVal.arr ns) := by
  unfold startIdPart
  cases h : dictGet gfields "startId" <;> simp [dictGet]

theorem transformGraph_eq_some {g out : JVal} (h : transformGraph g = some out) :
    ∃ gfields es ns, pyDictOf g = some gfields ∧
      iterElems ((dictGet gfields "nodes").getD (.arr [])) = some es ∧
      mapMOpt transformNode es = some ns ∧
      out = .obj (startIdPart gfields ++ [("nodes", .arr ns)]) := by
  unfold transformGraph at h
  split at h
  · exact absurd h (by simp)
  next gfields hg =>
    split at h
    · exact absurd h (by simp)
    next es hes =>
      split at h
      · exact absurd h (by simp)
      next ns hns =>
        exact ⟨gfields, es, ns, hg, hes, hns, (Option.some_inj.1 h).symm⟩

theorem transform_eq_some {fs : List (String × JVal)} {out : JVal}
    (h : transform (.obj fs) = some out) :
    ∃ ps g, transformPrompts ((dictGet fs "prompts").getD (.arr [])) = some ps ∧
      transformGraph ((dictGet fs "graph").getD (.obj [])) = some g ∧
      out = .obj [("prompts", .arr ps), ("graph", g)] := by
  have h' : (match transformPrompts ((dictGet fs "prompts").getD (.arr [])) with
    | none => none
    | some ps =>
      match transformGraph ((dictGet fs "graph").getD (.obj [])) with
      | none => none
      | some g => some (JVal.obj [("prompts", .arr ps), ("graph", g)])) = some out := h
  split at h'
  · exact absurd h' (by simp)
  next ps hps =>
    split at h'
    · exact absurd h' (by simp)
    next g hg =>
      exact ⟨ps, g, hps, hg, (Option.some_inj.1 h').symm⟩

/-! ## The prompt pass and totality -/

theorem transformPrompt_obj (pfs : List (String × JVal)) (s : String)
    (hs : asPyStr ((dictGet pfs "prompt").getD (.str "")) = some s) :
    transformPrompt (.obj pfs) = some (.obj
      [("nodeId", (dictGet pfs "nodeId").getD .null),
       ("prompt", .literalStrip (normalize s))]) := by
  simp only [transformPrompt, pyDictOf, hs, as_literal_strip]

theorem transformPrompt_shape {p out : JVal} (h : transformPrompt p = some out) :
    ∃ v s, out = .obj [("nodeId", v), ("prompt", JVal.literalStrip s)] := by
  unfold transformPrompt at h
  split at h
  · exact absurd h (by simp)
  next pfs hp =>
    dsimp only at h
    split at h
    · exact absurd h (by simp)
    next s hs =>
      exact ⟨(dictGet pfs "nodeId").getD .null, normalize s,
        (Option.some_inj.1 h).symm⟩

theorem mapMOpt_isSome (f : JVal → Option JVal) (l : List JVal)
    (h : ∀ x ∈ l, (f x).isSome) : (mapMOpt f l).isSome := by
  induction l with
  | nil => rfl
  | cons x xs ih =>
    obtain ⟨y, hy⟩ := Option.isSome_iff_exists.1 (h x (List.mem_cons_self x xs))
    obtain ⟨ys, hys⟩ :=
      Option.isSome_iff_exists.1 (ih (fun z hz => h z (List.mem_cons_of_mem _ hz)))
    simp [mapMOpt, hy, hys]

theorem transformNode_obj_isSome (fs : List (String × JVal)) :
    (transformNode (JVal.obj fs)).isSome := by
  cases hq : dictGet fs "question" with
  | none => rw [transformNode_question_absent fs hq]; rfl
  | some qv =>
    cases hs : asPyStr qv with
    | none => rw [transformNode_question_nonstr fs qv hq hs]; rfl
    | some q => rw [transformNode_question_strlike fs qv q hq hs]; rfl

/-! ## The claims -/

/-- C1.  For every node whose `question` field is a string `q`: length 0 gives
the empty string as a plain scalar, a short plain `q` is kept unchanged as a
plain scalar, and otherwise the question becomes `normalize q` styled
block-folded-strip; an absent or non-string `question` (including `null`)
passes the node through unchanged. -/
theorem transformNode_question_classification :
    (∀ fs q, dictGet fs "question" = some (JVal.str q) →
      transformNode (.obj fs) = some (.obj (dictSet fs "question"
        (if q.length = 0 then JVal.str ""
         else if is_short_plain_question q then JVal.str q
         else JVal.foldedStrip (normalize q)))))
    ∧ (∀ fs, dictGet fs "question" = none →
        transformNode (.obj fs) = some (.obj fs))
    ∧ (∀ fs v, dictGet fs "question" = some v → asPyStr v = none →
        transformNode (.obj fs) = some (.obj fs)) :=
  ⟨fun fs q hq => transformNode_question_strlike fs (.str q) q hq rfl,
   transformNode_question_absent,
   transformNode_question_nonstr⟩

/-- Witness for C1: a short question passes through plain, a node without a
question is untouched, and a `null` question is untouched. -/
theorem transformNode_question_classification_witness :
    transformNode (.obj [("question", JVal.str "Hi")]) =
      some (.obj (dictSet [("question", JVal.str "Hi")] "question"
        (if ("Hi" : String).length = 0 then JVal.str ""
         else if is_short_plain_question "Hi" then JVal.str "Hi"
         else JVal.foldedStrip (normalize "Hi"))))
    ∧ transformNode (.obj [("id", JVal.str "n")]) = some (.obj [("id", JVal.str "n")])
    ∧ transformNode (.obj [("question", JVal.null)]) =
        some (.obj [("question", JVal.null)]) :=
  ⟨transformNode_question_classification.1 [("question", JVal.str "Hi")] "Hi" rfl,
   transformNode_question_classification.2.1 [("id", JVal.str "n")] rfl,
   transformNode_question_classification.2.2 [("question", JVal.null)] JVal.null rfl rfl⟩

/-- Witness for C2 at a concrete prompt text. -/
theorem normalize_no_cr_no_trailing_lf_idempotent_witness :
    '\r' ∉ (normalize "a\r\nb\n\n").data ∧
    (normalize "a\r\nb\n\n").data.getLast? ≠ some '\n' ∧
    normalize (normalize "a\r\nb\n\n") = normalize "a\r\nb\n\n" :=
  normalize_no_cr_no_trailing_lf_idempotent "a\r\nb\n\n"

/-- C3.  `is_short_plain_question s` holds iff `s` is empty or `s` has no
newline and at most 40 characters; consequently a 40-character newline-free
question stays plain, a 41-character question becomes folded-block, and a
question containing a newline is never short. -/
theorem is_short_plain_question_spec :
    (∀ s : String, is_short_plain_question s = true ↔
      (s = "" ∨ ('\n' ∉ s.data ∧ s.length ≤ 40)))
    ∧ (∀ fs q, dictGet fs "question" = some (JVal.str q) → q.length = 40 →
        '\n' ∉ q.data →
        transformNode (.obj fs) = some (.obj (dictSet fs "question" (JVal.str q))))
    ∧ (∀ fs q, dictGet fs "question" = some (JVal.str q) → q.length = 41 →
        transformNode (.obj fs) = some (.obj (dictSet fs "question"
          (JVal.foldedStrip (normalize q)))))
    ∧ (∀ s : String, '\n' ∈ s.data → is_short_plain_question s = false) := by
  refine ⟨is_short_plain_question_iff, ?_, ?_, ?_⟩
  · intro fs q hq h40 hnl
    rw [transformNode_question_strlike fs (.str q) q hq rfl, if_neg (by omega),
      if_pos ((is_short_plain_question_iff q).2 (Or.inr ⟨hnl, by omega⟩))]
  · intro fs q hq h41
    have hshort : ¬ is_short_plain_question q = true := by
      intro hT
      rcases (is_short_plain_question_iff q).1 hT with h0 | ⟨_, hle⟩
      · have : q.length = 0 := by rw [h0]; rfl
        omega
      · omega
    rw [transformNode_question_strlike fs (.str q) q hq rfl, if_neg (by omega),
      if_neg hshort]
  · intro s hmem
    rw [← Bool.not_eq_true]
    intro hT
    rcases (is_short_plain_question_iff s).1 hT with h0 | ⟨hn, _⟩
    · subst h0
      exact absurd hmem (List.not_mem_nil _)
    · exact hn hmem

/-- Witness for C3: 40 copies of a letter stay plain, 41 fold, a newline disqualifies. -/
theorem is_short_plain_question_spec_witness :
    transformNode (.obj [("question", JVal.str (String.mk (List.replicate 40 'a')))]) =
      some (.obj (dictSet [("question", JVal.str (String.mk (List.replicate 40 'a')))]
        "question" (JVal.str (String.mk (List.replicate 40 'a')))))
    ∧ transformNode (.obj [("question", JVal.str (String.mk (List.replicate 41 'a')))]) =
        some (.obj (dictSet [("question", JVal.str (String.mk (List.replicate 41 'a')))]
          "question" (JVal.foldedStrip (normalize (String.mk (List.replicate 41 'a'))))))
    ∧ is_short_plain_question "ab\ncd" = false :=
  ⟨is_short_plain_question_spec.2.1 _ (String.mk (List.replicate 40 'a')) rfl
      (by decide) (by decide),
   is_short_plain_question_spec.2.2.1 _ (String.mk (List.replicate 41 'a')) rfl
      (by decide),
   is_short_plain_question_spec.2.2.2 "ab\ncd" (by decide)⟩

/-- C4.  The prompt pass maps `transformPrompt` over the elements of
`prompts`; each element yields a mapping with `nodeId` passed through (`null`
when absent) and `prompt` equal to `normalize` of the prompt text (empty
string when absent) styled block-literal-strip. -/
theorem transformPrompt_pass :
    (∀ es, transformPrompts (JVal.arr es) = mapMOpt transformPrompt es)
    ∧ (∀ pfs s, asPyStr ((dictGet pfs "prompt").getD (.str "")) = some s →
        transformPrompt (.obj pfs) = some (.obj
          [("nodeId", (dictGet pfs "nodeId").getD JVal.null),
           ("prompt", JVal.literalStrip (normalize s))])) :=
  ⟨fun _ => rfl, transformPrompt_obj⟩

/-- Witness for C4: the end-to-end example prompt element. -/
theorem transformPrompt_pass_witness :
    transformPrompt (.obj [("nodeId", JVal.str "n1"),
        ("prompt", JVal.str "Hello\r\nWorld\n\n")]) =
      some (.obj [("nodeId", JVal.str "n1"),
        ("prompt", JVal.literalStrip "Hello\nWorld")]) := by
  have h := transformPrompt_pass.2
    [("nodeId", JVal.str "n1"), ("prompt", JVal.str "Hello\r\nWorld\n\n")]
    "Hello\r\nWorld\n\n" rfl
  exact h

/-- C5 (counterexample).  `transform` is not total over arbitrary JSON
objects: a mapping whose `prompts` value is the number 5 makes the transform
raise (Python iterates the value, and a number is not iterable), rather than
treating the non-list as an empty list. -/
theorem transform_nonlist_prompts_fails :
    transform (.obj [("prompts", JVal.number 5)]) = none := rfl

/-- C5 (amended).  `transform` is total over mapping inputs whose `prompts`
field, when present, is a list of mappings each with a string (or absent)
`prompt` field, whose `graph` field, when present, is a mapping, and whose
`graph.nodes`, when present, is a list of mappings; missing optional fields
default rather than failing. -/
theorem transform_total_on_wellformed :
    ∀ fs ps gfields ns,
      (dictGet fs "prompts").getD (.arr []) = .arr ps →
      (∀ p ∈ ps, ∃ pfs, p = JVal.obj pfs ∧
        (asPyStr ((dictGet pfs "prompt").getD (.str ""))).isSome) →
      (dictGet fs "graph").getD (.obj []) = .obj gfields →
      (dictGet gfields "nodes").getD (.arr []) = .arr ns →
      (∀ n ∈ ns, ∃ nfs, n = JVal.obj nfs) →
      (transform (.obj fs)).isSome := by
  intro fs ps gfields ns hps hpok hg hn hnok
  have h1 : (mapMOpt transformPrompt ps).isSome := by
    refine mapMOpt_isSome _ _ (fun p hp => ?_)
    obtain ⟨pfs, rfl, hsome⟩ := hpok p hp
    obtain ⟨s, hs⟩ := Option.isSome_iff_exists.1 hsome
    rw [transformPrompt_obj pfs s hs]
    rfl
  obtain ⟨psOut, h1'⟩ := Option.isSome_iff_exists.1 h1
  have h2 : (mapMOpt transformNode ns).isSome := by
    refine mapMOpt_isSome _ _ (fun n hn' => ?_)
    obtain ⟨nfs, rfl⟩ := hnok n hn'
    exact transformNode_obj_isSome nfs
  obtain ⟨nsOut, h2'⟩ := Option.isSome_iff_exists.1 h2
  have hTP : transformPrompts ((dictGet fs "prompts").getD (.arr [])) = some psOut := by
    rw [hps]
    exact h1'
  have hTG : transformGraph ((dictGet fs "graph").getD (.obj [])) =
      some (.obj (startIdPart gfields ++ [("nodes", .arr nsOut)])) := by
    rw [hg]
    simp only [transformGraph, pyDictOf, hn, iterElems, h2']
  simp [transform, pyDictOf, hTP, hTG]

/-- Witness for C5 (amended) on a fully populated well-formed document. -/
theorem transform_total_on_wellformed_witness :
    (transform (.obj [
      ("prompts", JVal.arr [JVal.obj [("nodeId", JVal.str "n1"),
        ("prompt", JVal.str "Hello")]]),
      ("graph", JVal.obj [("startId", JVal.str "n1"),
        ("nodes", JVal.arr [JVal.obj [("id", JVal.str "n1"),
          ("question", JVal.str "Start")]])])])).isSome := by
  refine transform_total_on_wellformed _
    [JVal.obj [("nodeId", JVal.str "n1"), ("prompt", JVal.str "Hello")]]
    [("startId", JVal.str "n1"),
      ("nodes", JVal.arr [JVal.obj [("id", JVal.str "n1"),
        ("question", JVal.str "Start")]])]
    [JVal.obj [("id", JVal.str "n1"), ("question", JVal.str "Start")]]
    rfl ?_ rfl rfl ?_
  · intro p hp
    rw [List.mem_singleton] at hp
    subst hp
    exact ⟨_, rfl, rfl⟩
  · intro n hn
    rw [List.mem_singleton] at hn
    subst hn
    exact ⟨_, rfl⟩

/-- C6.  Every node is emitted with the same keys in the same order, every
entry other than `question` untouched, and a node with no `question` key is
emitted completely unchanged (no `question` key is added). -/
theorem transformNode_frame :
    ∀ fs fs', transformNode (.obj fs) = some (.obj fs') →
      fs'.map Prod.fst = fs.map Prod.fst ∧
      fs'.filter (fun kv => !(kv.1 == "question")) =
        fs.filter (fun kv => !(kv.1 == "question")) ∧
      (dictGet fs "question" = none → fs' = fs) := by
  intro fs fs' h
  cases hq : dictGet fs "question" with
  | none =>
    rw [transformNode_question_absent fs hq] at h
    have hx : JVal.obj fs = JVal.obj fs' := Option.some_inj.1 h
    injection hx with hx'
    subst hx'
    exact ⟨rfl, rfl, fun _ => rfl⟩
  | some qv =>
    cases hs : asPyStr qv with
    | none =>
      rw [transformNode_question_nonstr fs qv hq hs] at h
      have hx : JVal.obj fs = JVal.obj fs' := Option.some_inj.1 h
      injection hx with hx'
      subst hx'
      exact ⟨rfl, rfl, fun _ => rfl⟩
    | some q =>
      rw [transformNode_question_strlike fs qv q hq hs] at h
      have hx := Option.some_inj.1 h
      injection hx with hx'
      subst hx'
      refine ⟨dictSet_map_fst _ (by rw [hq]; rfl), dictSet_filter_ne _ _ _,
        fun hc => Option.noConfusion hc⟩

/-- Witness for C6: a node with an `id`, a long `question` and a trailing
extra key keeps everything except the restyled `question`. -/
theorem transformNode_frame_witness :
    ([("id", JVal.str "n2"),
      ("question", JVal.foldedStrip
        (normalize "This is a much longer question that definitely exceeds forty characters easily")),
      ("next", JVal.null)].map Prod.fst =
      [("id", JVal.str "n2"),
        ("question", JVal.str "This is a much longer question that definitely exceeds forty characters easily"),
        ("next", JVal.null)].map Prod.fst)
    ∧ ([("id", JVal.str "n2"),
        ("question", JVal.foldedStrip
          (normalize "This is a much longer question that definitely exceeds forty characters easily")),
        ("next", JVal.null)].filter (fun kv => !(kv.1 == "question")) =
        [("id", JVal.str "n2"),
          ("question", JVal.str "This is a much longer question that definitely exceeds forty characters easily"),
          ("next", JVal.null)].filter (fun kv => !(kv.1 == "question")))
    ∧ (dictGet [("id", JVal.str "n2"),
        ("question", JVal.str "This is a much longer question that definitely exceeds forty characters easily"),
        ("next", JVal.null)] "question" = none →
        [("id", JVal.str "n2"),
          ("question", JVal.foldedStrip
            (normalize "This is a much longer question that definitely exceeds forty characters easily")),
          ("next", JVal.null)] =
          [("id", JVal.str "n2"),
            ("question", JVal.str "This is a much longer question that definitely exceeds forty characters easily"),
            ("next", JVal.null)]) :=
  transformNode_frame
    [("id", JVal.str "n2"),
      ("question", JVal.str "This is a much longer question that definitely exceeds forty characters easily"),
      ("next", JVal.null)]
    [("id", JVal.str "n2"),
      ("question", JVal.foldedStrip
        (normalize "This is a much longer question that definitely exceeds forty characters easily")),
      ("next", JVal.null)]
    (by rfl)

/-- C7.  A successful `transform` yields exactly the two top-level keys
`prompts` then `graph`; the output graph carries `startId` exactly as the
input graph object does (verbatim, including `null`) and always carries a
`nodes` list. -/
theorem transform_assembly :
    ∀ fs out, transform (.obj fs) = some out →
      ∃ ps gfields ns,
        pyDictOf ((dictGet fs "graph").getD (.obj [])) = some gfields ∧
        out = .obj [("prompts", .arr ps),
          ("graph", .obj (startIdPart gfields ++ [("nodes", .arr ns)]))] ∧
        dictGet (startIdPart gfields ++ [("nodes", JVal.arr ns)]) "startId" =
          dictGet gfields "startId" ∧
        dictGet (startIdPart gfields ++ [("nodes", JVal.arr ns)]) "nodes" =
          some (JVal.arr ns) := by
  intro fs out h
  obtain ⟨ps, g, hps, hg, rfl⟩ := transform_eq_some h
  obtain ⟨gfields, es, ns, hgf, hes, hns, rfl⟩ := transformGraph_eq_some hg
  exact ⟨ps, gfields, ns, hgf, rfl, dictGet_graph_out_startId _ _,
    dictGet_graph_out_nodes _ _⟩

/-- Witness for C7 on a document whose graph has a `null` `startId`. -/
theorem transform_assembly_witness :
    ∃ ps gfields ns,
      pyDictOf ((dictGet [("graph", JVal.obj [("startId", JVal.null)])] "graph").getD
        (.obj [])) = some gfields ∧
      (JVal.obj [("prompts", JVal.arr []),
        ("graph", JVal.obj [("startId", JVal.null), ("nodes", JVal.arr [])])]) =
        .obj [("prompts", .arr ps),
          ("graph", .obj (startIdPart gfields ++ [("nodes", .arr ns)]))] ∧
      dictGet (startIdPart gfields ++ [("nodes", JVal.arr ns)]) "startId" =
        dictGet gfields "startId" ∧
      dictGet (startIdPart gfields ++ [("nodes", JVal.arr ns)]) "nodes" =
        some (JVal.arr ns) :=
  transform_assembly [("graph", JVal.obj [("startId", JVal.null)])]
    (JVal.obj [("prompts", JVal.arr []),
      ("graph", JVal.obj [("startId", JVal.null), ("nodes", JVal.arr [])])])
    (by rfl)

/-- C8.  Exit behaviour of the driver: a missing YAML library yields exit
code 2 with a diagnostic naming `ruamel.yaml`, before any processing; any
load, transform or write failure yields exit code 1 with a one-line
`Conversion failed: ...` diagnostic; success yields exit code 0 and no
diagnostic. -/
theorem runDriver_exit_codes :
    (∀ w : DriverWorld, w.yamlAvailable = false →
      runDriver w =
        (2, some "Error: ruamel.yaml is required. Install with: pip install ruamel.yaml"))
    ∧ (∀ w e, w.yamlAvailable = true → w.loadOutcome = .error e →
        runDriver w = (1, some ("Conversion failed: " ++ e)))
    ∧ (∀ w data, w.yamlAvailable = true → w.loadOutcome = .ok data →
        transform data = none →
        runDriver w = (1, some ("Conversion failed: " ++ w.transformErrText)))
    ∧ (∀ w data o e, w.yamlAvailable = true → w.loadOutcome = .ok data →
        transform data = some o → w.writeOutcome = .error e →
        runDriver w = (1, some ("Conversion failed: " ++ e)))
    ∧ (∀ w data o, w.yamlAvailable = true → w.loadOutcome = .ok data →
        transform data = some o → w.writeOutcome = .ok () →
        runDriver w = (0, none)) := by
  refine ⟨?_, ?_, ?_, ?_, ?_⟩
  · intro w h
    simp [runDriver, h]
  · intro w e h1 h2
    simp [runDriver, h1, h2]
  · intro w data h1 h2 h3
    simp [runDriver, h1, h2, h3]
  · intro w data o e h1 h2 h3 h4
    simp [runDriver, h1, h2, h3, h4]
  · intro w data o h1 h2 h3 h4
    simp [runDriver, h1, h2, h3, h4]

/-- Witness for C8 on four concrete driver worlds. -/
theorem runDriver_exit_codes_witness :
    runDriver ⟨false, .ok JVal.null, "", .ok ()⟩ =
      (2, some "Error: ruamel.yaml is required. Install with: pip install ruamel.yaml")
    ∧ runDriver ⟨true, .error "No such file or directory", "", .ok ()⟩ =
        (1, some ("Conversion failed: " ++ "No such file or directory"))
    ∧ runDriver ⟨true, .ok (.obj [("prompts", JVal.number 5)]),
        "int object is not iterable", .ok ()⟩ =
        (1, some ("Conversion failed: " ++ "int object is not iterable"))
    ∧ runDriver ⟨true, .ok (.obj []), "", .ok ()⟩ = (0, none) :=
  ⟨runDriver_exit_codes.1 _ rfl,
   runDriver_exit_codes.2.1 _ "No such file or directory" rfl rfl,
   runDriver_exit_codes.2.2.1 _ (.obj [("prompts", JVal.number 5)]) rfl rfl rfl,
   runDriver_exit_codes.2.2.2.2 _ (.obj [])
     (.obj [("prompts", JVal.arr []), ("graph", JVal.obj [("nodes", JVal.arr [])])])
     rfl rfl rfl rfl⟩

/-- C9.  Every emitted prompt mapping has exactly the two keys `nodeId` then
`prompt` (the latter a block-literal-strip scalar); any other key of the
input prompt element is discarded. -/
theorem transformPrompt_exact_keys :
    ∀ p out, transformPrompt p = some out →
      ∃ v s, out = .obj [("nodeId", v), ("prompt", JVal.literalStrip s)] :=
  fun _ _ h => transformPrompt_shape h

/-- Witness for C9: an input prompt element with an extra key yields exactly
the two keys. -/
theorem transformPrompt_exact_keys_witness :
    ∃ v s, (JVal.obj [("nodeId", JVal.str "n1"), ("prompt", JVal.literalStrip "hi")]) =
      JVal.obj [("nodeId", v), ("prompt", JVal.literalStrip s)] :=
  transformPrompt_exact_keys
    (JVal.obj [("nodeId", JVal.str "n1"), ("prompt", JVal.str "hi"),
      ("extra", JVal.boolean true)])
    (JVal.obj [("nodeId", JVal.str "n1"), ("prompt", JVal.literalStrip "hi")])
    (by rfl)

/-- C10.  A question of at most 40 characters containing a CR but no LF is
short-plain, so it is emitted unchanged as a plain scalar — the CR survives,
unconverted and unstripped, because normalization runs only on the folded
branch. -/
theorem transformNode_short_cr_passthrough :
    ∀ fs q, dictGet fs "question" = some (JVal.str q) →
      q.data.contains '\r' = true → q.data.contains '\n' = false →
      q.length ≤ 40 →
      transformNode (.obj fs) = some (.obj (dictSet fs "question" (JVal.str q))) := by
  intro fs q hq hcr hnl hlen
  have hne : q.length ≠ 0 := by
    intro h0
    have hqe : q = "" := by
      cases q with
      | mk l =>
        cases l with
        | nil => rfl
        | cons c cs => simp [String.length] at h0
    rw [hqe] at hcr
    exact absurd hcr (by decide)
  have hmem : '\n' ∉ q.data := by
    intro hm
    rw [← List.elem_iff ] at hm
    rw [show q.data.contains '\n' = q.data.elem '\n' from rfl] at hnl
    rw [hnl] at hm
    exact Bool.false_ne_true hm
  rw [transformNode_question_strlike fs (.str q) q hq rfl, if_neg hne,
    if_pos ((is_short_plain_question_iff q).2 (Or.inr ⟨hmem, hlen⟩))]

/-- Witness for C10: a short question with an embedded CR survives verbatim. -/
theorem transformNode_short_cr_passthrough_witness :
    transformNode (.obj [("question", JVal.str "Line1\rLine2")]) =
      some (.obj [("question", JVal.str "Line1\rLine2")]) := by
  have h := transformNode_short_cr_passthrough
    [("question", JVal.str "Line1\rLine2")] "Line1\rLine2"
    rfl (by decide) (by decide) (by decide)
  exact h

end SurveyNav
